import Mathlib

/-!
Verification of the NervaPy ARM code-generation core (`nervapy/arm/function.py`).

The development shallowly embeds the parts of the pipeline the claims are
about: EABI argument placement (`Function.__init__`), the stack frame and its
prologue/epilogue synthesis (`StackFrame.generate_prologue` /
`generate_epilogue`, `Function.generate_prolog_and_epilog`,
`StackFrame.get_parameters_offset`), the ARMv7-M stack-alignment validator
(`Function.validate_stack_alignment_check`), register allocation
(`Function.allocate_registers` and the grouped-constraint collection in
`Function.determine_register_relations`), the dead-move peephole
(`Function.optimize_instructions`), instruction appending
(`Function.add_instruction`) and the two assembly emitters.

Registers are represented by their physical numbers (`sp` is 13) or, for
allocation, by their bitboards (plain naturals).  Python lists become `List`,
dictionaries become association lists kept in insertion order, and raised
exceptions become `Except` / `Option` results.
-/

namespace NervaPy

/-- Location assigned to one function argument by the ABI binder in
`Function.__init__`: a single register of `r0`-`r3` (by index), an aligned
register pair, or a stack offset in bytes. -/
inductive ArgLocation where
  | inReg (index : Nat)
  | inRegPair (lo hi : Nat)
  | onStack (offset : Nat)
deriving DecidableEq, Repr

/-- Translation of the argument-placement loop of `Function.__init__`
(src/nervapy/arm/function.py, the `abi == arm_gnueabi or abi == arm_gnueabihf`
branch): `registerOffset` counts how many of `r0..r3` are already taken and
`stackOffset` is the running stack offset in bytes.  Each argument is
represented by its size in bytes. -/
def assignArguments : List Nat → Nat → Nat → Except String (List ArgLocation)
  | [], _, _ => .ok []
  | size :: rest, registerOffset, stackOffset =>
    if size ≤ 4 then
      if registerOffset < 4 then
        (assignArguments rest (registerOffset + 1) stackOffset).map
          (fun tail => .inReg registerOffset :: tail)
      else
        (assignArguments rest registerOffset (stackOffset + 4)).map
          (fun tail => .onStack stackOffset :: tail)
    else if size = 8 then
      if (if registerOffset % 2 = 1 then registerOffset + 1 else registerOffset) < 4 then
        (assignArguments rest
            ((if registerOffset % 2 = 1 then registerOffset + 1 else registerOffset) + 2)
            stackOffset).map
          (fun tail =>
            .inRegPair (if registerOffset % 2 = 1 then registerOffset + 1 else registerOffset)
              ((if registerOffset % 2 = 1 then registerOffset + 1 else registerOffset) + 1) :: tail)
      else
        (assignArguments rest
            (if registerOffset % 2 = 1 then registerOffset + 1 else registerOffset)
            ((if stackOffset % 8 = 4 then stackOffset + 4 else stackOffset) + 8)).map
          (fun tail =>
            .onStack (if stackOffset % 8 = 4 then stackOffset + 4 else stackOffset) :: tail)
    else .error "Unsupported argument size"

/-- The EABI placement rule in the words of the specification (claim C1):
the next free register of `(r0, r1, r2, r3)` is taken for a 32-bit argument
while any remain; an 8-byte argument takes an even-starting pair, skipping
one register when the next free one has odd index; otherwise arguments go to
the stack, 4-byte slots for small arguments and 8-byte-aligned slots for
8-byte arguments; other sizes are rejected.  `remaining` is the list of
argument registers still free. -/
def eabiPlacement : List Nat → List Nat → Nat → Except String (List ArgLocation)
  | [], _, _ => .ok []
  | size :: rest, remaining, stackOffset =>
    if size ≤ 4 then
      match remaining with
      | r :: others =>
        (eabiPlacement rest others stackOffset).map (fun tail => .inReg r :: tail)
      | [] =>
        (eabiPlacement rest [] (stackOffset + 4)).map
          (fun tail => .onStack stackOffset :: tail)
    else if size = 8 then
      match (match remaining with
             | r :: others => if r % 2 = 1 then others else remaining
             | [] => ([] : List Nat)) with
      | a :: b :: others =>
        (eabiPlacement rest others stackOffset).map (fun tail => .inRegPair a b :: tail)
      | _ =>
        (eabiPlacement rest []
            ((if stackOffset % 8 = 4 then stackOffset + 4 else stackOffset) + 8)).map
          (fun tail =>
            .onStack (if stackOffset % 8 = 4 then stackOffset + 4 else stackOffset) :: tail)
    else .error "Unsupported argument size"

theorem assignArguments_eq_eabiPlacement (sizes : List Nat) :
    ∀ registerOffset stackOffset, registerOffset ≤ 4 →
      assignArguments sizes registerOffset stackOffset =
        eabiPlacement sizes (List.drop registerOffset [0, 1, 2, 3]) stackOffset := by
  induction sizes with
  | nil => intro ro so _; rfl
  | cons size rest ih =>
    intro ro so hro
    by_cases h4 : size ≤ 4
    · interval_cases ro
      · simp [assignArguments, eabiPlacement, h4, ih 1 so (by omega)]
      · simp [assignArguments, eabiPlacement, h4, ih 2 so (by omega)]
      · simp [assignArguments, eabiPlacement, h4, ih 3 so (by omega)]
      · simp [assignArguments, eabiPlacement, h4, ih 4 so (by omega)]
      · simp [assignArguments, eabiPlacement, h4, ih 4 (so + 4) (by omega)]
    · by_cases h8 : size = 8
      · interval_cases ro
        · simp [assignArguments, eabiPlacement, h4, h8, ih 2 so (by omega)]
        · simp [assignArguments, eabiPlacement, h4, h8, ih 4 so (by omega)]
        · simp [assignArguments, eabiPlacement, h4, h8, ih 4 so (by omega)]
        · by_cases hso : so % 8 = 4
          · simp [assignArguments, eabiPlacement, h4, h8, hso, ih 4 (so + 4 + 8) (by omega)]
          · simp [assignArguments, eabiPlacement, h4, h8, hso, ih 4 (so + 8) (by omega)]
        · by_cases hso : so % 8 = 4
          · simp [assignArguments, eabiPlacement, h4, h8, hso, ih 4 (so + 4 + 8) (by omega)]
          · simp [assignArguments, eabiPlacement, h4, h8, hso, ih 4 (so + 8) (by omega)]
      · simp [assignArguments, eabiPlacement, h4, h8]

theorem assignArguments_rejects (sizes : List Nat) :
    ∀ registerOffset stackOffset,
      (∃ s ∈ sizes, ¬ s ≤ 4 ∧ s ≠ 8) →
      assignArguments sizes registerOffset stackOffset = .error "Unsupported argument size" := by
  induction sizes with
  | nil => intro _ _ h; rcases h with ⟨s, hs, _⟩; simp at hs
  | cons size rest ih =>
    intro ro so h
    rcases h with ⟨s, hs, hbad⟩
    rcases List.mem_cons.mp hs with rfl | hmem
    · simp [assignArguments, hbad.1, hbad.2]
    · by_cases h4 : size ≤ 4
      · by_cases hlt : ro < 4
        · simp [assignArguments, h4, hlt, ih (ro + 1) so ⟨s, hmem, hbad⟩, Except.map]
        · simp [assignArguments, h4, hlt, ih ro (so + 4) ⟨s, hmem, hbad⟩, Except.map]
      · by_cases h8 : size = 8
        · have hrec := fun a b => ih a b ⟨s, hmem, hbad⟩
          simp only [assignArguments, if_neg h4, if_pos h8]
          split <;> split <;> simp [hrec, Except.map]
        · simp [assignArguments, h4, h8]

/-- C1: Under `arm_gnueabi`/`arm_gnueabihf` the argument locations assigned at
function construction follow the EABI placement rule (registers `r0..r3` in
order, even-starting pairs for 8-byte arguments, aligned stack spill, other
sizes rejected), and the signature `(u32, u64, u32)` maps to
`r0, (r2, r3), stack offset 0`. -/
theorem c1_argument_placement :
    (∀ sizes, assignArguments sizes 0 0 = eabiPlacement sizes [0, 1, 2, 3] 0)
    ∧ assignArguments [4, 8, 4] 0 0 =
        .ok [.inReg 0, .inRegPair 2 3, .onStack 0]
    ∧ (∀ sizes, (∃ s ∈ sizes, ¬ s ≤ 4 ∧ s ≠ 8) →
        assignArguments sizes 0 0 = .error "Unsupported argument size") := by
  refine ⟨fun sizes => assignArguments_eq_eabiPlacement sizes 0 0 (by omega), by rfl,
    fun sizes h => assignArguments_rejects sizes 0 0 h⟩

theorem c1_argument_placement_witness :
    assignArguments [4, 8, 4] 0 0 = .ok [.inReg 0, .inRegPair 2 3, .onStack 0]
    ∧ assignArguments [16] 0 0 = .error "Unsupported argument size" :=
  ⟨c1_argument_placement.2.1, c1_argument_placement.2.2 [16] ⟨16, by decide, by decide⟩⟩

/-- High-register strategy enumeration (`nervapy/arm/formats.py`). -/
inductive HighRegisterStrategy where
  | PUSH_W
  | STMDB
  | AUTO
deriving DecidableEq, Repr

/-- Assembly output format enumeration (`nervapy/arm/formats.py`). -/
inductive AssemblyFormat where
  | GAS
  | ARMCC
deriving DecidableEq, Repr

/-- Modelled from the spec: the instruction classes of `nervapy.arm.generic`,
`nervapy.arm.vfpneon` and `nervapy.arm.pseudo` are not under `src/`; each
constructor mirrors one class of the spec's instruction IR with the fields the
pipeline reads.  GP registers are physical numbers (`sp` = 13, `lr` = 14),
D registers are their indices.  `push`/`pop` are the 16-bit `PushPopInstruction`
forms, `pushW`/`popW` the 32-bit ones; `stmdb`/`ldmia` are the
store/load-multiple instructions with writeback on `base`; `vpush`/`vpop` the
`VfpNeonPushPopInstruction`s; `sub`/`add` the `ArithmeticInstruction`s with an
immediate; `bl`/`blx` the branch-with-link instructions; `bx` the
`BranchExchangeInstruction` (return); `b` a `BranchInstruction` with a target
label; `label` a `LabelQuasiInstruction`; `mov` a GP `MovInstruction`; `vmov` a
`VfpNeonMovInstruction`. -/
inductive Instr where
  | push (regs : List Nat)
  | pushW (regs : List Nat)
  | pop (regs : List Nat)
  | popW (regs : List Nat)
  | stmdb (base : Nat) (regs : List Nat)
  | ldmia (base : Nat) (regs : List Nat)
  | vpush (regs : List Nat)
  | vpop (regs : List Nat)
  | sub (dest src : Nat) (imm : Int)
  | add (dest src : Nat) (imm : Int)
  | bl (target : String)
  | blx (reg : Nat)
  | bx (reg : Nat)
  | b (mnemonic : String) (target : String)
  | label (name : String)
  | mov (dest src : Nat)
  | vmov (dest src : Nat)
  | other (mnemonic : String)
deriving DecidableEq, Repr

/-- One step of insertion sort on register numbers. -/
def insertByNumber (x : Nat) : List Nat → List Nat
  | [] => [x]
  | y :: rest => if x ≤ y then x :: y :: rest else y :: insertByNumber x rest

/-- `sorted(regs, key=lambda reg: reg.get_physical_number())`: registers are
represented by their physical numbers, so this is an ascending sort. -/
def sortedByNumber : List Nat → List Nat
  | [] => []
  | x :: rest => insertByNumber x (sortedByNumber rest)

/-- The padding step of `StackFrame.generate_prologue`/`generate_epilogue`:
append the scratch register `r3` when the register count is odd, keeping the
pushed byte count a multiple of 8. -/
def padWithR3 (regs : List Nat) : List Nat :=
  if regs.length % 2 = 1 then regs ++ [3] else regs

/-- The stack frame (`StackFrame`): the preserved callee-saved GP registers
and D registers, in preservation order (`general_purpose_registers`,
`d_registers`). -/
structure StackFrame where
  general_purpose_registers : List Nat
  d_registers : List Nat
deriving DecidableEq, Repr

/-- Translation of `StackFrame.generate_prologue`: a 16-bit `PUSH` of the
preserved low registers (padded with `r3` to even cardinality), the
high-register save chosen by the strategy and format, then `VPUSH` of the
preserved D registers; on non-ARMv7-M targets a single padded `PUSH` of all
preserved GP registers. -/
def generate_prologue (isV7M : Bool) (strategy : HighRegisterStrategy)
    (fmt : AssemblyFormat) (frame : StackFrame) : List Instr :=
  (if frame.general_purpose_registers ≠ [] then
    (if isV7M then
      (if frame.general_purpose_registers.filter (fun r => r ≤ 7) ≠ [] then
        [Instr.push (sortedByNumber
          (padWithR3 (frame.general_purpose_registers.filter (fun r => r ≤ 7))))]
       else []) ++
      (if frame.general_purpose_registers.filter (fun r => 7 < r) ≠ [] then
        [if strategy = .PUSH_W ∨ (strategy = .AUTO ∧ fmt = .GAS) then
          Instr.pushW (sortedByNumber (frame.general_purpose_registers.filter (fun r => 7 < r)))
         else if strategy = .STMDB ∨ (strategy = .AUTO ∧ fmt = .ARMCC) then
          Instr.stmdb 13 (sortedByNumber (frame.general_purpose_registers.filter (fun r => 7 < r)))
         else
          Instr.pushW (sortedByNumber (frame.general_purpose_registers.filter (fun r => 7 < r)))]
       else [])
     else
      [Instr.push (sortedByNumber (padWithR3 frame.general_purpose_registers))])
   else []) ++
  (if frame.d_registers ≠ [] then [Instr.vpush (sortedByNumber frame.d_registers)] else [])

/-- Translation of `StackFrame.generate_epilogue`: `VPOP` of the preserved D
registers, the high-register restore chosen by the strategy and format, then a
16-bit `POP` of the preserved low registers with the same `r3` padding; on
non-ARMv7-M targets a single padded `POP`. -/
def generate_epilogue (isV7M : Bool) (strategy : HighRegisterStrategy)
    (fmt : AssemblyFormat) (frame : StackFrame) : List Instr :=
  (if frame.d_registers ≠ [] then [Instr.vpop (sortedByNumber frame.d_registers)] else []) ++
  (if frame.general_purpose_registers ≠ [] then
    (if isV7M then
      (if frame.general_purpose_registers.filter (fun r => 7 < r) ≠ [] then
        [if strategy = .PUSH_W ∨ (strategy = .AUTO ∧ fmt = .GAS) then
          Instr.popW (sortedByNumber (frame.general_purpose_registers.filter (fun r => 7 < r)))
         else if strategy = .STMDB ∨ (strategy = .AUTO ∧ fmt = .ARMCC) then
          Instr.ldmia 13 (sortedByNumber (frame.general_purpose_registers.filter (fun r => 7 < r)))
         else
          Instr.popW (sortedByNumber (frame.general_purpose_registers.filter (fun r => 7 < r)))]
       else []) ++
      (if frame.general_purpose_registers.filter (fun r => r ≤ 7) ≠ [] then
        [Instr.pop (sortedByNumber
          (padWithR3 (frame.general_purpose_registers.filter (fun r => r ≤ 7))))]
       else [])
     else
      [Instr.pop (sortedByNumber (padWithR3 frame.general_purpose_registers))])
   else [])

/-- The save/restore mirror: each prologue save instruction corresponds to one
epilogue restore instruction over the same register list. -/
def mirrorSave : Instr → Instr
  | .push regs => .pop regs
  | .pushW regs => .popW regs
  | .stmdb base regs => .ldmia base regs
  | .vpush regs => .vpop regs
  | i => i

/-- Translation of `Function.generate_prolog_and_epilog`: walk the stream,
emitting the prologue right after the `ENTRY` label and the epilogue right
before every `BranchExchangeInstruction`. -/
def generate_prolog_and_epilog (prologue epilogue : List Instr) : List Instr → List Instr
  | [] => []
  | .label name :: rest =>
    if name = "ENTRY" then
      .label name :: (prologue ++ generate_prolog_and_epilog prologue epilogue rest)
    else
      .label name :: generate_prolog_and_epilog prologue epilogue rest
  | .bx reg :: rest => epilogue ++ (.bx reg :: generate_prolog_and_epilog prologue epilogue rest)
  | instr :: rest => instr :: generate_prolog_and_epilog prologue epilogue rest

/-- Translation of `StackFrame.get_parameters_offset`: four bytes per
preserved GP register, plus four bytes of padding when that is congruent to 4
modulo 8, plus eight bytes per preserved D register. -/
def get_parameters_offset (frame : StackFrame) : Nat :=
  (if (frame.general_purpose_registers.length * 4) % 8 = 4 then
    frame.general_purpose_registers.length * 4 + 4
   else
    frame.general_purpose_registers.length * 4) + frame.d_registers.length * 8

/-- The parameters offset exactly as claim C6 states it: 4 times the number of
preserved LOW (r0-r7) registers, padded up to a multiple of 8, plus 8 times
the number of preserved D registers. -/
def claimedParametersOffset (frame : StackFrame) : Nat :=
  ((frame.general_purpose_registers.filter (fun r => r ≤ 7)).length * 4 + 7) / 8 * 8
    + frame.d_registers.length * 8

theorem generate_epilogue_mirror (isV7M : Bool) (strategy : HighRegisterStrategy)
    (fmt : AssemblyFormat) (frame : StackFrame) :
    generate_epilogue isV7M strategy fmt frame =
      ((generate_prologue isV7M strategy fmt frame).reverse).map mirrorSave := by
  unfold generate_prologue generate_epilogue
  split_ifs <;> simp_all [mirrorSave]

/-- C3: on ARMv7-M the prologue is, in order, a 16-bit `PUSH` of the preserved
low registers (with `r3` appended when their count is odd), the high-register
save chosen by the strategy, then `VPUSH` of the preserved D registers, each
part absent when its register set is empty; the epilogue is the exact mirror
in reverse order, inserted before every return-exchange, and the prologue goes
right after `ENTRY`.  A function preserving only `r4` gets `PUSH {r3, r4}` /
`POP {r3, r4}`. -/
theorem c3_prologue_epilogue :
    (∀ strategy fmt frame,
      generate_epilogue true strategy fmt frame =
        ((generate_prologue true strategy fmt frame).reverse).map mirrorSave)
    ∧ generate_prologue true .AUTO .GAS ⟨[4], []⟩ = [.push [3, 4]]
    ∧ generate_epilogue true .AUTO .GAS ⟨[4], []⟩ = [.pop [3, 4]]
    ∧ generate_prologue true .AUTO .GAS ⟨[4, 8], [8]⟩ = [.push [3, 4], .pushW [8], .vpush [8]]
    ∧ generate_epilogue true .AUTO .GAS ⟨[4, 8], [8]⟩ = [.vpop [8], .popW [8], .pop [3, 4]]
    ∧ (∀ prologue epilogue mnemonic reg,
        generate_prolog_and_epilog prologue epilogue
            [.label "ENTRY", .other mnemonic, .bx reg] =
          [Instr.label "ENTRY"] ++ prologue ++ [.other mnemonic] ++ epilogue ++ [.bx reg]) := by
  refine ⟨fun strategy fmt frame => generate_epilogue_mirror true strategy fmt frame,
    by rfl, by rfl, by rfl, by rfl, fun prologue epilogue mnemonic reg => ?_⟩
  simp [generate_prolog_and_epilog]

/-- C6 counterexample: for a frame preserving only the high register `r8` (and
no D registers) the code computes parameters offset 8, while the claim's
formula (4 times the number of preserved LOW registers, padded to a multiple
of 8, plus 8 per D register) gives 0. -/
theorem c6_offset_counterexample :
    get_parameters_offset ⟨[8], []⟩ = 8
    ∧ claimedParametersOffset ⟨[8], []⟩ = 0
    ∧ get_parameters_offset ⟨[8], []⟩ ≠ claimedParametersOffset ⟨[8], []⟩ := by
  refine ⟨by rfl, by rfl, by decide⟩

/-- C6 (amended): the offset from SP to the first stack-spilled argument is 4
times the number of ALL preserved general-purpose registers (low and high),
padded up to a multiple of 8, plus 8 times the number of preserved D
registers. -/
theorem c6_parameters_offset (frame : StackFrame) :
    get_parameters_offset frame =
      (frame.general_purpose_registers.length * 4 + 7) / 8 * 8
        + frame.d_registers.length * 8 := by
  unfold get_parameters_offset
  split_ifs <;> omega

/-- GP register name as printed in assembly. -/
def registerName (r : Nat) : String :=
  if r = 13 then "sp" else if r = 14 then "lr" else if r = 15 then "pc"
  else "r" ++ toString r

/-- Register-list operand text, e.g. `{r4, r5}`. -/
def registerListText (names : List String) : String :=
  "\x7b" ++ String.intercalate ", " names ++ "\x7d"

/-- Modelled from the spec: `str(instruction)` of the instruction classes that
are not under `src/` — the mnemonic followed by its operands, with
register-list operands in braces and writeback bases suffixed by `!`. -/
def instrText : Instr → String
  | .push regs => "PUSH " ++ registerListText (regs.map registerName)
  | .pushW regs => "PUSH.W " ++ registerListText (regs.map registerName)
  | .pop regs => "POP " ++ registerListText (regs.map registerName)
  | .popW regs => "POP.W " ++ registerListText (regs.map registerName)
  | .stmdb base regs =>
    "STMDB " ++ registerName base ++ "!, " ++ registerListText (regs.map registerName)
  | .ldmia base regs =>
    "LDMIA " ++ registerName base ++ "!, " ++ registerListText (regs.map registerName)
  | .vpush regs => "VPUSH " ++ registerListText (regs.map (fun r => "d" ++ toString r))
  | .vpop regs => "VPOP " ++ registerListText (regs.map (fun r => "d" ++ toString r))
  | .sub dest src imm =>
    "SUB " ++ registerName dest ++ ", " ++ registerName src ++ ", #" ++ toString imm
  | .add dest src imm =>
    "ADD " ++ registerName dest ++ ", " ++ registerName src ++ ", #" ++ toString imm
  | .bl target => "BL " ++ target
  | .blx reg => "BLX " ++ registerName reg
  | .bx reg => "BX " ++ registerName reg
  | .b mnemonic target => mnemonic ++ " " ++ target
  | .label name => name ++ ":"
  | .mov dest src => "MOV " ++ registerName dest ++ ", " ++ registerName src
  | .vmov dest src => "VMOV d" ++ toString dest ++ ", d" ++ toString src
  | .other mnemonic => mnemonic

/-- Translation of the per-instruction loop of
`Function._generate_gas_assembly`: a `BranchInstruction` is rendered with its
target as `L<function>.<label>`, a `LabelQuasiInstruction` as
`L<function>.<name>:`, anything else as a tab plus its own text. -/
def renderGasLine (functionName : String) : Instr → String
  | .b mnemonic target => "\t" ++ mnemonic ++ " L" ++ functionName ++ "." ++ target
  | .label name => "L" ++ functionName ++ "." ++ name ++ ":"
  | instr => "\t" ++ instrText instr

/-- Translation of the per-instruction loop of
`Function._generate_armcc_assembly`: a `BranchInstruction` is rendered with
its target as `<function>_<label>`, a `LabelQuasiInstruction` as
`<function>_<name>`, anything else as eight spaces plus its own text. -/
def renderArmccLine (functionName : String) : Instr → String
  | .b mnemonic target => "        " ++ mnemonic ++ " " ++ functionName ++ "_" ++ target
  | .label name => functionName ++ "_" ++ name
  | instr => "        " ++ instrText instr

/-- The instruction lines of the emitted assembly, in the selected format. -/
def assemblyBodyLines (fmt : AssemblyFormat) (functionName : String)
    (instrs : List Instr) : List String :=
  match fmt with
  | .GAS => instrs.map (renderGasLine functionName)
  | .ARMCC => instrs.map (renderArmccLine functionName)

/-- C7: with high registers preserved on ARMv7-M, building with `AUTO` yields
assembly byte-identical to `PUSH_W` under GAS and to `STMDB` under ARMCC: the
generated prologue, epilogue, full instruction stream and rendered instruction
lines coincide. -/
theorem c7_auto_strategy_equivalence (frame : StackFrame)
    (functionName : String) (userInstrs : List Instr)
    (h : ∃ r ∈ frame.general_purpose_registers, 7 < r) :
    (assemblyBodyLines .GAS functionName
        (generate_prolog_and_epilog (generate_prologue true .AUTO .GAS frame)
          (generate_epilogue true .AUTO .GAS frame) userInstrs)
      = assemblyBodyLines .GAS functionName
        (generate_prolog_and_epilog (generate_prologue true .PUSH_W .GAS frame)
          (generate_epilogue true .PUSH_W .GAS frame) userInstrs))
    ∧ (assemblyBodyLines .ARMCC functionName
        (generate_prolog_and_epilog (generate_prologue true .AUTO .ARMCC frame)
          (generate_epilogue true .AUTO .ARMCC frame) userInstrs)
      = assemblyBodyLines .ARMCC functionName
        (generate_prolog_and_epilog (generate_prologue true .STMDB .ARMCC frame)
          (generate_epilogue true .STMDB .ARMCC frame) userInstrs)) := by
  constructor <;> rfl

theorem c7_auto_strategy_equivalence_witness :
    (∃ r ∈ (StackFrame.mk [8] []).general_purpose_registers, 7 < r)
    ∧ assemblyBodyLines .ARMCC "fn"
        (generate_prolog_and_epilog (generate_prologue true .AUTO .ARMCC ⟨[8], []⟩)
          (generate_epilogue true .AUTO .ARMCC ⟨[8], []⟩) [.label "ENTRY", .bx 14])
      = assemblyBodyLines .ARMCC "fn"
        (generate_prolog_and_epilog (generate_prologue true .STMDB .ARMCC ⟨[8], []⟩)
          (generate_epilogue true .STMDB .ARMCC ⟨[8], []⟩) [.label "ENTRY", .bx 14]) :=
  ⟨⟨8, by decide, by decide⟩,
    (c7_auto_strategy_equivalence ⟨[8], []⟩ "fn" [.label "ENTRY", .bx 14]
      ⟨8, by decide, by decide⟩).2⟩

/-- C9 counterexample: a branch to the label `loop.begin` in function `fn` is
emitted by the ARMCC emitter as `fn_loop.begin`, not as `loop_begin`: the
function-name prefix is kept and the dot is NOT replaced. -/
theorem c9_branch_label_counterexample :
    renderArmccLine "fn" (.b "B" "loop.begin") = "        B fn_loop.begin"
    ∧ renderArmccLine "fn" (.b "B" "loop.begin") ≠ "        B loop_begin"
    ∧ ("fn_loop.begin".toList.contains (Char.ofNat 46)) = true := by
  refine ⟨by rfl, by decide, by rfl⟩

/-- C9 (amended): branch targets are rendered as `L<function>.<label>` in GAS
output and as `<function>_<label>` in ARMCC output, the label text kept
unchanged in both (the ARMCC emitter does not replace dots; dot-free ARMCC
labels come from the label names themselves); a branch to `loop.begin` in
function `fn` is emitted as `Lfn.loop.begin` under GAS and `fn_loop.begin`
under ARMCC. -/
theorem c9_branch_target_rendering :
    (∀ functionName mnemonic target,
      renderGasLine functionName (.b mnemonic target)
        = "\t" ++ mnemonic ++ " L" ++ functionName ++ "." ++ target)
    ∧ (∀ functionName mnemonic target,
      renderArmccLine functionName (.b mnemonic target)
        = "        " ++ mnemonic ++ " " ++ functionName ++ "_" ++ target)
    ∧ renderGasLine "fn" (.b "B" "loop.begin") = "\tB Lfn.loop.begin"
    ∧ renderArmccLine "fn" (.b "B" "loop.begin") = "        B fn_loop.begin" := by
  exact ⟨fun _ _ _ => rfl, fun _ _ _ => rfl, rfl, rfl⟩

/-- The error raised by `Function.validate_stack_alignment_check`: the message
reports the instruction mnemonic, the current stack offset, and the
misalignment (`stack_offset % 8`). -/
structure StackAlignmentError where
  mnemonic : String
  offset : Int
  misalignment : Int
deriving DecidableEq, Repr

/-- The prologue-skip test of `Function.validate_stack_alignment_check`: a
`PushPopInstruction` named `PUSH`/`PUSH.W`, a `VfpNeonPushPopInstruction`, or
a `StoreMultipleInstruction` with writeback whose name starts with `STM`. -/
def prologueSkippable : Instr → Bool
  | .push _ => true
  | .pushW _ => true
  | .vpush _ => true
  | .vpop _ => true
  | .stmdb _ _ => true
  | _ => false

/-- Translation of the instruction walk of
`Function.validate_stack_alignment_check`: non-`Instruction` entries (labels)
are skipped outright; while fewer than `prologueSize` instructions matching
the prologue shapes have been seen they are skipped without affecting the
offset; then `PUSH`/`PUSH.W` add 4 bytes per register, `POP`/`POP.W` subtract
them, `STM`/`LDM` with writeback on `sp` add/subtract them, `SUB sp, sp, #imm`
adds `imm`, `ADD sp, sp, #imm` subtracts it, and a `BL`/`BLX` at an offset not
divisible by 8 raises the error. -/
def validateWalk (prologueSize : Nat) :
    List Instr → Nat → Int → Option StackAlignmentError
  | [], _, _ => none
  | instr :: rest, seen, offset =>
    match instr with
    | .label _ => validateWalk prologueSize rest seen offset
    | _ =>
      if seen < prologueSize ∧ prologueSkippable instr then
        validateWalk prologueSize rest (seen + 1) offset
      else
        match instr with
        | .push regs => validateWalk prologueSize rest seen (offset + 4 * regs.length)
        | .pushW regs => validateWalk prologueSize rest seen (offset + 4 * regs.length)
        | .pop regs => validateWalk prologueSize rest seen (offset - 4 * regs.length)
        | .popW regs => validateWalk prologueSize rest seen (offset - 4 * regs.length)
        | .stmdb base regs =>
          validateWalk prologueSize rest seen
            (if base = 13 then offset + 4 * regs.length else offset)
        | .ldmia base regs =>
          validateWalk prologueSize rest seen
            (if base = 13 then offset - 4 * regs.length else offset)
        | .sub dest src imm =>
          validateWalk prologueSize rest seen
            (if dest = 13 ∧ src = 13 then offset + imm else offset)
        | .add dest src imm =>
          validateWalk prologueSize rest seen
            (if dest = 13 ∧ src = 13 then offset - imm else offset)
        | .bl _ =>
          if offset % 8 ≠ 0 then some ⟨"BL", offset, offset % 8⟩
          else validateWalk prologueSize rest seen offset
        | .blx _ =>
          if offset % 8 ≠ 0 then some ⟨"BLX", offset, offset % 8⟩
          else validateWalk prologueSize rest seen offset
        | _ => validateWalk prologueSize rest seen offset

/-- Translation of `Function.validate_stack_alignment_check`: a no-op unless
the target has the `V7M` extension; otherwise walk the stream with the skip
budget set to the length of the regenerated prologue and the offset starting
at 0. -/
def validate_stack_alignment_check (hasV7M : Bool) (strategy : HighRegisterStrategy)
    (fmt : AssemblyFormat) (frame : StackFrame) (instrs : List Instr) :
    Option StackAlignmentError :=
  if ¬ hasV7M then none
  else validateWalk (generate_prologue hasV7M strategy fmt frame).length instrs 0 0

/-- The SP-delta table of claim C2 for one instruction. -/
def claimDelta : Instr → Int
  | .push regs => 4 * regs.length
  | .pushW regs => 4 * regs.length
  | .pop regs => -(4 * regs.length)
  | .popW regs => -(4 * regs.length)
  | .stmdb base regs => if base = 13 then 4 * regs.length else 0
  | .ldmia base regs => if base = 13 then -(4 * (regs.length : Int)) else 0
  | .sub dest src imm => if dest = 13 ∧ src = 13 then imm else 0
  | .add dest src imm => if dest = 13 ∧ src = 13 then -imm else 0
  | _ => 0

/-- One step of the offset tracking described by claim C2: labels are not
instructions, the prologue's save instructions are skipped, every other
instruction moves the offset by its delta. -/
def claimStep (prologueSize : Nat) : Nat × Int → Instr → Nat × Int
  | (seen, offset), .label _ => (seen, offset)
  | (seen, offset), instr =>
    if seen < prologueSize ∧ prologueSkippable instr then (seen + 1, offset)
    else (seen, offset + claimDelta instr)

/-- `BL` and `BLX` are the call instructions checked by the validator. -/
def isCallInstr : Instr → Bool
  | .bl _ => true
  | .blx _ => true
  | _ => false

/-- Claim C2's raise condition: some `BL` or `BLX` instruction is reached at
an SP offset (tracked from 0 after the skipped prologue) that is not congruent
to 0 modulo 8. -/
def claimMisalignedCall (prologueSize : Nat) (instrs : List Instr) : Prop :=
  ∃ i instr, instrs[i]? = some instr ∧ isCallInstr instr = true ∧
    ((instrs.take i).foldl (claimStep prologueSize) (0, 0)).2 % 8 ≠ 0

theorem add_ite_zero (c : Prop) [Decidable c] (o x : Int) :
    (if c then o + x else o) = o + (if c then x else 0) := by
  split <;> simp

theorem exists_call_cons (f : Nat × Int → Instr → Nat × Int) (a : Instr) (l : List Instr)
    (st : Nat × Int) (C : Instr → Prop) (M : Int → Prop) :
    (∃ i instr, (a :: l)[i]? = some instr ∧ C instr ∧ M (((a :: l).take i).foldl f st).2) ↔
      ((C a ∧ M st.2) ∨
        ∃ i instr, l[i]? = some instr ∧ C instr ∧ M ((l.take i).foldl f (f st a)).2) := by
  constructor
  · rintro ⟨i, instr, hget, hc, hm⟩
    cases i with
    | zero =>
      left
      simp only [List.getElem?_cons_zero, Option.some.injEq] at hget
      subst hget
      exact ⟨hc, by simpa using hm⟩
    | succ j =>
      right
      exact ⟨j, instr, by simpa using hget, hc, by simpa using hm⟩
  · rintro (⟨hc, hm⟩ | ⟨i, instr, hget, hc, hm⟩)
    · exact ⟨0, a, by simp, hc, by simpa using hm⟩
    · exact ⟨i + 1, instr, by simpa using hget, hc, by simpa using hm⟩

theorem validateWalk_isSome_iff (prologueSize : Nat) (instrs : List Instr) :
    ∀ seen offset,
      (validateWalk prologueSize instrs seen offset).isSome ↔
        (∃ i instr, instrs[i]? = some instr ∧ isCallInstr instr = true ∧
          ((instrs.take i).foldl (claimStep prologueSize) (seen, offset)).2 % 8 ≠ 0) := by
  induction instrs with
  | nil => intro seen offset; simp [validateWalk]
  | cons a rest ih =>
    intro seen offset
    rw [exists_call_cons (claimStep prologueSize) a rest (seen, offset)
      (fun instr => isCallInstr instr = true) (fun z => z % 8 ≠ 0)]
    cases a <;>
      by_cases hskip : seen < prologueSize <;>
        simp [validateWalk, claimStep, claimDelta, isCallInstr, prologueSkippable, hskip, ih,
          sub_eq_add_neg, add_ite_zero] <;>
        (try (split_ifs <;> simp_all [ih, isCallInstr, sub_eq_add_neg, add_ite_zero]))

/-- The instruction stream of the misaligned-BL scenario after prologue and
epilogue insertion on CortexM4: preserved set `{r4}`, prologue `PUSH {r3,r4}`,
user code `PUSH {r4}; BL external_func; POP {r4}`, return `BX lr`. -/
def misalignedBlStream : List Instr :=
  [.label "ENTRY", .push [3, 4], .push [4], .bl "external_func",
   .pop [4], .pop [3, 4], .bx 14]

/-- The instruction stream of the aligned-BL scenario: preserved set
`{r4, r5}`, prologue `PUSH {r4,r5}`, user code
`PUSH {r4,r5}; BL external_func; POP {r4,r5}`, return `BX lr`. -/
def alignedBlStream : List Instr :=
  [.label "ENTRY", .push [4, 5], .push [4, 5], .bl "external_func",
   .pop [4, 5], .pop [4, 5], .bx 14]

/-- C2 counterexample: on the claim's own CortexM4 scenario (prologue
`PUSH {r3,r4}`, user `PUSH {r4}` then `BL`) the validator raises with current
offset 4 — the offset is tracked relative to the post-prologue SP, so the
prologue's 8 bytes are not included — not with offset 12 as the claim
states. -/
theorem c2_reported_offset_counterexample :
    validate_stack_alignment_check true .AUTO .GAS ⟨[4], []⟩ misalignedBlStream
      = some ⟨"BL", 4, 4⟩
    ∧ (StackAlignmentError.mk "BL" 4 4).offset ≠ 12 := by
  exact ⟨by rfl, by decide⟩

/-- C2 (amended): with validation enabled the validator raises if and only if
the target has the V7M extension and, walking the stream after skipping the
prologue's save instructions with the SP offset starting at 0 and moving by
the claim's delta table, some `BL`/`BLX` is reached at an offset not congruent
to 0 mod 8; without V7M it raises nothing.  On CortexM4, prologue
`PUSH {r3,r4}`, user `PUSH {r4}` then `BL` raises citing a BL instruction at
offset 4 (the offset is relative to the post-prologue SP), while
`PUSH {r4,r5}` then `BL` succeeds. -/
theorem c2_stack_alignment_validator :
    (∀ strategy fmt frame instrs,
      validate_stack_alignment_check false strategy fmt frame instrs = none)
    ∧ (∀ strategy fmt frame instrs,
        (validate_stack_alignment_check true strategy fmt frame instrs).isSome ↔
          claimMisalignedCall (generate_prologue true strategy fmt frame).length instrs)
    ∧ validate_stack_alignment_check true .AUTO .GAS ⟨[4], []⟩ misalignedBlStream
        = some ⟨"BL", 4, 4⟩
    ∧ validate_stack_alignment_check true .AUTO .GAS ⟨[4, 5], []⟩ alignedBlStream = none := by
  refine ⟨fun strategy fmt frame instrs => by simp [validate_stack_alignment_check],
    fun strategy fmt frame instrs => ?_, by rfl, by rfl⟩
  simpa [validate_stack_alignment_check, claimMisalignedCall] using
    validateWalk_isSome_iff (generate_prologue true strategy fmt frame).length instrs 0 0

/-- Translation of `Function.optimize_instructions`: the pass rebuilds the
stream keeping every instruction except a `VfpNeonMovInstruction` whose two
operands are equal; in particular a general-purpose `MovInstruction` is always
kept. -/
def optimize_instructions : List Instr → List Instr
  | [] => []
  | .vmov dest src :: rest =>
    if dest ≠ src then .vmov dest src :: optimize_instructions rest
    else optimize_instructions rest
  | instr :: rest => instr :: optimize_instructions rest

/-- C8: the final peephole drops only VFP/NEON self-moves.  A general-purpose
`MOV r4, r4` survives `optimize_instructions`, so the final stream can contain
a move whose source equals its destination, contradicting the claim (the
`VMOV d5, d5` in the same stream is dropped, all else kept in order). -/
theorem c8_gp_self_move_kept :
    optimize_instructions [.mov 4 4, .vmov 5 5, .other "NOP"]
      = [.mov 4 4, .other "NOP"]
    ∧ Instr.mov 4 4 ∈ optimize_instructions [.mov 4 4, .vmov 5 5, .other "NOP"] := by
  exact ⟨by rfl, by decide⟩

/-- ISA extension tags (`nervapy.arm.isa.Extension`). -/
inductive Extension where
  | Thumb2
  | V5E
  | V6
  | V6K
  | V7
  | V7M
  | V7MP
  | Div
  | DSP
  | VFP
  | VFP2
  | VFP3
  | VFPHP
  | VFP4
  | VFPd32
  | NEON
  | NEONHP
  | NEON2
deriving DecidableEq, Repr

/-- Modelled from the spec: the `Instruction` interface of
`nervapy.arm.instructions` (not under `src/`) as read by
`Function.add_instruction` — the instruction itself, its required ISA
extensions, the size in bytes of the root of its optional local variable
(`instruction.get_local_variable()` / `LocalVariable.get_root()` /
`get_size()`; a `LocalVariable`'s size is 4, 8 or 16 by register type, or the
integer it was constructed from), and the GP registers it writes. -/
structure Instruction where
  kind : Instr
  isa_extensions : List Extension
  local_variable : Option Nat
  output_registers : List Nat
deriving DecidableEq, Repr

/-- The function state mutated by `Function.add_instruction`: the instruction
stream and the stack frame. -/
structure FunctionState where
  instructions : List Instruction
  frame : StackFrame
deriving DecidableEq, Repr

/-- The `GeneralPurposeRegister` branch of `StackFrame.preserve_register`:
record the register for prologue saving when it is callee-saved and not
already recorded.  (Output registers are modelled as GP registers; the S/D/Q
branches behave alike on their own lists.) -/
def preserve_register (calleeSave : List Nat) (frame : StackFrame) (reg : Nat) : StackFrame :=
  if reg ∉ frame.general_purpose_registers ∧ reg ∈ calleeSave then
    { frame with general_purpose_registers := frame.general_purpose_registers ++ [reg] }
  else frame

/-- `StackFrame.preserve_registers`: record each register in turn. -/
def preserve_registers (calleeSave : List Nat) (frame : StackFrame)
    (regs : List Nat) : StackFrame :=
  regs.foldl (preserve_register calleeSave) frame

/-- Translation of `StackFrame.add_variable`: the size-16 branch reads
`self.sse_variables` and the size-32 branch reads `self.avx_variables`, two
fields that `StackFrame.__init__` never initializes, so both raise
`AttributeError`; every other size raises `TypeError`.  The function therefore
raises for EVERY variable and never records anything — the `.ok` result type
exists only for the call site's shape. -/
def add_variable (frame : StackFrame) (size : Nat) : Except String StackFrame :=
  if size = 16 then .error "AttributeError: StackFrame has no attribute sse_variables"
  else if size = 32 then .error "AttributeError: StackFrame has no attribute avx_variables"
  else .error "TypeError: Unsupported variable type"

/-- Translation of `Function.add_instruction`: `None` is ignored; for an
`Instruction`, every required ISA extension is checked against the target's
extension set and the first unsupported one raises, BEFORE the local variable
is recorded, the output registers are registered for preservation, or the
instruction is appended.  A supported instruction with a local variable then
calls `StackFrame.add_variable` on the variable's root — which raises for
every input (see `add_variable`) — and only an instruction surviving that
call has its outputs preserved and is appended at the end of the stream. -/
def add_instruction (targetExtensions : List Extension) (calleeSave : List Nat)
    (state : FunctionState) (instruction : Option Instruction) :
    Except String FunctionState :=
  match instruction with
  | none => .ok state
  | some instruction =>
    match instruction.isa_extensions.find? (fun e => e ∉ targetExtensions) with
    | some _ => .error "not supported on the target microarchitecture"
    | none =>
      match instruction.local_variable with
      | some size =>
        match add_variable state.frame size with
        | .error msg => .error msg
        | .ok frame2 =>
          .ok { instructions := state.instructions ++ [instruction]
                frame := preserve_registers calleeSave frame2 instruction.output_registers }
      | none =>
        .ok { instructions := state.instructions ++ [instruction]
              frame := preserve_registers calleeSave state.frame instruction.output_registers }

/-- C10 counterexample: an instruction whose required extension set IS
contained in the target's extension set but which references a local variable
(here of root size 16, a Q-register variable) is NOT appended to the stream:
`StackFrame.add_variable` raises on every input, so `add_instruction`
propagates an error where the claim promises `.ok` with the instruction
appended. -/
theorem c10_local_variable_counterexample :
    (([Extension.V7M] : List Extension).all (fun e => e ∈ [Extension.V7M])) = true
    ∧ add_instruction [Extension.V7M] [4] ⟨[], ⟨[], []⟩⟩
        (some ⟨.other "LDR", [Extension.V7M], some 16, []⟩)
      = .error "AttributeError: StackFrame has no attribute sse_variables" := by
  exact ⟨by decide, by rfl⟩

/-- C10 (amended): appending an instruction whose required ISA-extension set
is not contained in the target's extension set raises an error before any
state is touched (nothing is appended, no local variable recorded, no output
register preserved); every supported instruction that references no local
variable is appended at the end of the stream after its outputs are
registered; a supported instruction that references a local variable raises
from `StackFrame.add_variable` (TypeError for root sizes outside 16/32,
AttributeError otherwise, since `sse_variables`/`avx_variables` are never
initialized) before the stream or preserved set is touched. -/
theorem c10_add_instruction :
    (∀ targetExtensions calleeSave state instruction,
      (∃ e ∈ instruction.isa_extensions, e ∉ targetExtensions) →
        add_instruction targetExtensions calleeSave state (some instruction)
          = .error "not supported on the target microarchitecture")
    ∧ (∀ targetExtensions calleeSave state instruction,
        (∀ e ∈ instruction.isa_extensions, e ∈ targetExtensions) →
          instruction.local_variable = none →
          ∃ state2,
            add_instruction targetExtensions calleeSave state (some instruction) = .ok state2
              ∧ state2.instructions = state.instructions ++ [instruction])
    ∧ (∀ targetExtensions calleeSave state instruction size,
        (∀ e ∈ instruction.isa_extensions, e ∈ targetExtensions) →
          instruction.local_variable = some size →
          ∃ msg,
            add_instruction targetExtensions calleeSave state (some instruction)
              = .error msg) := by
  refine ⟨?_, ?_, ?_⟩
  · intro targetExtensions calleeSave state instruction h
    have hsome : (instruction.isa_extensions.find? (fun e => e ∉ targetExtensions)).isSome := by
      rw [List.find?_isSome]
      rcases h with ⟨e, hmem, hnot⟩
      exact ⟨e, hmem, by simpa using hnot⟩
    rcases Option.isSome_iff_exists.mp hsome with ⟨e, he⟩
    unfold add_instruction
    simp only [decide_not] at he
    simp [he]
  · intro targetExtensions calleeSave state instruction h hlv
    have hnone : instruction.isa_extensions.find? (fun e => e ∉ targetExtensions) = none := by
      rw [List.find?_eq_none]
      intro e hmem
      simpa using h e hmem
    refine ⟨{ instructions := state.instructions ++ [instruction]
              frame := preserve_registers calleeSave state.frame instruction.output_registers },
      ?_, by simp⟩
    unfold add_instruction
    try simp only [decide_not] at hnone
    simp [hnone, hlv]
  · intro targetExtensions calleeSave state instruction size h hlv
    have hnone : instruction.isa_extensions.find? (fun e => e ∉ targetExtensions) = none := by
      rw [List.find?_eq_none]
      intro e hmem
      simpa using h e hmem
    unfold add_instruction
    try simp only [decide_not] at hnone
    simp [hnone, hlv]
    unfold add_variable
    split_ifs <;> exact ⟨_, rfl⟩

theorem c10_add_instruction_witness :
    add_instruction [Extension.V7M] [4]
        ⟨[], ⟨[], []⟩⟩ (some ⟨.other "VMULL", [Extension.NEON], none, []⟩)
      = .error "not supported on the target microarchitecture"
    ∧ (∃ state2,
        add_instruction [Extension.V7M] [4]
            ⟨[], ⟨[], []⟩⟩ (some ⟨.mov 4 0, [Extension.V7M], none, [4]⟩)
          = .ok state2
          ∧ state2.instructions = [] ++ [⟨.mov 4 0, [Extension.V7M], none, [4]⟩])
    ∧ (∃ msg,
        add_instruction [Extension.V7M] [4]
            ⟨[], ⟨[], []⟩⟩ (some ⟨.other "STR", [Extension.V7M], some 4, []⟩)
          = .error msg) :=
  ⟨c10_add_instruction.1 [Extension.V7M] [4] ⟨[], ⟨[], []⟩⟩
      ⟨.other "VMULL", [Extension.NEON], none, []⟩ ⟨Extension.NEON, by decide, by decide⟩,
    c10_add_instruction.2.1 [Extension.V7M] [4] ⟨[], ⟨[], []⟩⟩
      ⟨.mov 4 0, [Extension.V7M], none, [4]⟩ (by decide) rfl,
    c10_add_instruction.2.2 [Extension.V7M] [4] ⟨[], ⟨[], []⟩⟩
      ⟨.other "STR", [Extension.V7M], some 4, []⟩ 4 (by decide) rfl⟩

/-- A key of the allocator's maps: a single virtual register id or a grouped
tuple of ids (the Python dict mixes `int` and `tuple` keys). -/
inductive AllocKey where
  | single (vid : Nat)
  | group (vids : List Nat)
deriving DecidableEq, Repr

/-- Association-list lookup with a default, standing in for Python dictionary
indexing. -/
def lookupD {α β : Type} [DecidableEq α] (m : List (α × β)) (k : α) (d : β) : β :=
  match m.find? (fun e => e.1 = k) with
  | some e => e.2
  | none => d

/-- Translation of the pruning loop of `bind_register`
(`for allocation_bitboard in options: if allocation_bitboard & bitboard != 0:
options.remove(allocation_bitboard)`): Python's `for` keeps a cursor into the
list it mutates, so removing the element under the cursor skips the next one.
`i` is the cursor; the fuel is the initial length, which bounds the iteration
count since the cursor only advances and the list never grows. -/
def pyPruneScalar (bitboard : Nat) : Nat → Nat → List Nat → List Nat
  | 0, _, options => options
  | fuel + 1, i, options =>
    match options[i]? with
    | none => options
    | some x =>
      if x &&& bitboard ≠ 0 then pyPruneScalar bitboard fuel (i + 1) (options.erase x)
      else pyPruneScalar bitboard fuel (i + 1) options

/-- The scalar option-list prune of `bind_register` / `bind_registers`. -/
def pruneScalarOptions (options : List Nat) (bitboard : Nat) : List Nat :=
  pyPruneScalar bitboard options.length 0 options

/-- The grouped option-list prune of `bind_registers`: an option (a tuple of
bitboards) is removed when its component at the conflicting member's index
overlaps the bound bitboard — with the same remove-while-iterating cursor
semantics. -/
def pyPruneGroup (idx : Nat) (bitboard : Nat) : Nat → Nat → List (List Nat) → List (List Nat)
  | 0, _, options => options
  | fuel + 1, i, options =>
    match options[i]? with
    | none => options
    | some bbs =>
      if bbs.getD idx 0 &&& bitboard ≠ 0 then
        pyPruneGroup idx bitboard fuel (i + 1) (options.erase bbs)
      else pyPruneGroup idx bitboard fuel (i + 1) options

/-- Entry point for the grouped prune. -/
def pruneGroupOptions (options : List (List Nat)) (idx : Nat) (bitboard : Nat) :
    List (List Nat) :=
  pyPruneGroup idx bitboard options.length 0 options

/-- The allocator state read and mutated by `Function.allocate_registers`:
`scalar_options` and `group_options` are the two key shapes of the Python
`allocation_options` dict, `conflicting_registers` the conflict graph,
`unallocated_registers` the work list.  Physical registers are identified with
their bitboards. -/
structure AllocState where
  scalar_options : List (Nat × List Nat)
  group_options : List (List Nat × List (List Nat))
  conflicting_registers : List (Nat × List Nat)
  unallocated_registers : List AllocKey
deriving DecidableEq, Repr

/-- Translation of `bind_register`: for every conflicting register that still
has a scalar entry in `allocation_options` (an `int` key never equals a
`tuple` key, so grouped entries are untouched here), prune the options
overlapping the bound bitboard, then record the binding. -/
def bind_register (st : AllocState) (allocation : List (Nat × Nat))
    (vid : Nat) (bitboard : Nat) : AllocState × List (Nat × Nat) :=
  ({ st with
      scalar_options := st.scalar_options.map (fun e =>
        if e.1 ∈ lookupD st.conflicting_registers vid [] then
          (e.1, pruneScalarOptions e.2 bitboard)
        else e) },
    allocation ++ [(vid, bitboard)])

/-- One conflicting register's pruning step inside `bind_registers`: both key
shapes of `allocation_options` are visited — a tuple entry containing the
conflicting id is pruned at that id's index in the tuple, a scalar entry equal
to it is pruned directly. -/
def bindRegistersPruneOne (bitboard : Nat) (st : AllocState) (cid : Nat) : AllocState :=
  { st with
    scalar_options := st.scalar_options.map (fun e =>
      if e.1 = cid then (e.1, pruneScalarOptions e.2 bitboard) else e)
    group_options := st.group_options.map (fun e =>
      if cid ∈ e.1 then (e.1, pruneGroupOptions e.2 (e.1.indexOf cid) bitboard) else e) }

/-- Translation of `bind_registers`: per grouped member, prune every
conflicting register's entries of both key shapes, then record all member
bindings. -/
def bind_registers (st : AllocState) (allocation : List (Nat × Nat))
    (vids bitboards : List Nat) : AllocState × List (Nat × Nat) :=
  ((vids.zip bitboards).foldl
      (fun acc p =>
        (lookupD acc.conflicting_registers p.1 []).foldl
          (bindRegistersPruneOne p.2) acc)
      st,
    allocation ++ vids.zip bitboards)

/-- The argument-hinting pass of `Function.allocate_registers`: a
`LoadArgumentPseudoInstruction` whose argument sits in a physical register
binds its virtual destination to that register when the bitboard is still an
option. -/
def allocParamsStep (acc : AllocState × List (Nat × Nat)) (hint : Nat × Nat) :
    AllocState × List (Nat × Nat) :=
  if (acc.2.find? (fun e => e.1 = hint.1)).isSome then acc
  else if hint.2 ∈ lookupD acc.1.scalar_options hint.1 [] then
    bind_register acc.1 acc.2 hint.1 hint.2
  else acc

/-- The grouped pass of `Function.allocate_registers`: each tuple key takes
the first remaining joint option (the Python `assert` on a nonempty option
list becomes an error). -/
def allocGroupStep (acc : AllocState × List (Nat × Nat)) (key : AllocKey) :
    Except String (AllocState × List (Nat × Nat)) :=
  match key with
  | .single _ => .ok acc
  | .group vids =>
    match lookupD acc.1.group_options vids [] with
    | [] => .error "Assertion failed: no remaining joint allocation option"
    | bitboards :: _ => .ok (bind_registers acc.1 acc.2 vids bitboards)

/-- The scalar pass of `Function.allocate_registers`: each not-yet-allocated
single key takes the first remaining option. -/
def allocScalarStep (acc : AllocState × List (Nat × Nat)) (key : AllocKey) :
    Except String (AllocState × List (Nat × Nat)) :=
  match key with
  | .group _ => .ok acc
  | .single vid =>
    if (acc.2.find? (fun e => e.1 = vid)).isSome then .ok acc
    else
      match lookupD acc.1.scalar_options vid [] with
      | [] => .error "Assertion failed: no remaining allocation option"
      | bitboard :: _ => .ok (bind_register acc.1 acc.2 vid bitboard)

/-- Translation of `Function.allocate_registers`: the argument-hint pass, the
grouped pass over the work list, then the scalar pass popping the work list in
order; the result is the virtual-to-physical binding. -/
def allocate_registers (st0 : AllocState) (hints : List (Nat × Nat)) :
    Except String (List (Nat × Nat)) := do
  let acc1 := hints.foldl allocParamsStep (st0, [])
  let acc2 ← st0.unallocated_registers.foldlM allocGroupStep acc1
  let acc3 ← acc2.1.unallocated_registers.foldlM allocScalarStep acc2
  return acc3.2

/-- The default allocation options `determine_register_relations` seeds for a
virtual S register: each of the 32 single-precision slots. -/
def sRegisterSeedOptions : List Nat := (List.range 32).map (fun n => 1 <<< n)

/-- The default allocation options `determine_register_relations` seeds for a
virtual D register on a target without `VFPd32`: each of the 16 aligned
D slots (two consecutive S bits). -/
def dRegisterSeedOptions : List Nat := (List.range 16).map (fun n => 3 <<< (2 * n))

/-- The allocator state produced by `determine_register_relations` for a
function in which a virtual D register (id 100) and a virtual S register
(id 101) are simultaneously live at some instruction, the D register first in
the work list: both carry their seeded VFP-bank options and conflict with each
other. -/
def conflictingDSState : AllocState :=
  { scalar_options := [(100, dRegisterSeedOptions), (101, sRegisterSeedOptions)]
    group_options := []
    conflicting_registers := [(100, [101]), (101, [100])]
    unallocated_registers := [.single 100, .single 101] }

/-- C4 fails on the code: for the conflicting live D/S pair of
`conflictingDSState` the allocator binds the D register to bitboard 3 (`d0`)
and then the S register to bitboard 2 (`s1`), which overlap.  The prune in
`bind_register` removes options from the list it is iterating, which skips the
option right after each removal, so `s1` (bit 1, adjacent to the removed
`s0`) survives the prune against the bound `d0` and is then picked first. -/
theorem c4_overlapping_allocation :
    allocate_registers conflictingDSState [] = .ok [(100, 3), (101, 2)]
    ∧ 101 ∈ lookupD conflictingDSState.conflicting_registers 100 []
    ∧ 3 &&& 2 ≠ 0 := by
  refine ⟨by rfl, by decide, by decide⟩

/-- `register_id_list` construction in `determine_register_relations`: the
distinct register ids in first-occurrence order. -/
def dedupIds (ids : List Nat) : List Nat :=
  ids.foldl (fun acc rid => if rid ∈ acc then acc else acc ++ [rid]) []

/-- The `register_id_map` consistency check of the grouped-constraint
enumeration: build the id-to-bitboard map in insertion order, rejecting a
placement (`none`) when two occurrences of one id would get different
bitboards. -/
def buildIdMap : List (Nat × Nat) → List (Nat × Nat) → Option (List (Nat × Nat))
  | [], idMap => some idMap
  | (rid, bitboard) :: rest, idMap =>
    match idMap.find? (fun e => e.1 = rid) with
    | some e => if e.2 ≠ bitboard then none else buildIdMap rest idMap
    | none => buildIdMap rest (idMap ++ [(rid, bitboard)])

/-- The self-overlap check of the grouped-constraint enumeration: fold the
map's bitboards (in insertion order) into one accumulator, rejecting a
placement in which two of them overlap. -/
def valuesDisjoint (values : List Nat) : Bool :=
  (values.foldl
    (fun acc bitboard =>
      match acc with
      | none => none
      | some joined =>
        if joined &&& bitboard = 0 then some (joined ||| bitboard) else none)
    (some 0)).isSome

/-- Translation of the placement enumeration for
`VFPLoadStoreMultipleInstruction` S-register lists in
`Function.determine_register_relations`: for each starting slot
`pos` in `range(0, 32 - len(register_list) + 1)` the list's registers get the
consecutive single-bit bitboards `1 << (pos + i)`; the placement is kept when
every bitboard is currently in its register's option list, repeated ids get
equal bitboards, and the bitboards do not overlap; the stored option lists
the bitboards in first-occurrence order of the distinct ids.  (For plain
virtual S registers `extend_bitboard` is the identity.) -/
def enumerateSGroupOptions (scalarOptions : List (Nat × List Nat))
    (regIds : List Nat) : List (List Nat) :=
  (List.range (32 - regIds.length + 1)).filterMap (fun pos =>
    if (regIds.enum.map (fun e => (e.2, 1 <<< (pos + e.1)))).all
        (fun e => e.2 ∈ lookupD scalarOptions e.1 []) then
      match buildIdMap (regIds.enum.map (fun e => (e.2, 1 <<< (pos + e.1)))) [] with
      | none => none
      | some idMap =>
        if valuesDisjoint (idMap.map (fun e => e.2)) then
          some ((dedupIds regIds).map (fun rid => lookupD idMap rid 0))
        else none
    else none)

/-- Translation of the grouped-constraint collection loop of
`Function.determine_register_relations` over the `VFPLoadStoreMultiple`
S-register instructions of the stream (each given by its operand register-id
list): per instruction the valid placements are enumerated; an empty
enumeration raises `RegisterAllocationError`; a tuple of more than one
distinct id is recorded in `constraints`, intersected with any earlier
recording for the same tuple.  The final value of the Python loop variable
`options` — the LAST processed instruction's enumeration — is returned
alongside, because the finalization stores it (see `storeGroupOptions`). -/
def collectGroupConstraints (scalarOptions : List (Nat × List Nat)) :
    List (List Nat) → List (List Nat × List (List Nat)) → List (List Nat) →
    Except String (List (List Nat × List (List Nat)) × List (List Nat))
  | [], constraints, lastOptions => .ok (constraints, lastOptions)
  | regIds :: rest, constraints, lastOptions =>
    if regIds.length > 1 then
      if enumerateSGroupOptions scalarOptions regIds ≠ [] then
        if (dedupIds regIds).length > 1 then
          collectGroupConstraints scalarOptions rest
            (if (constraints.find? (fun e => e.1 = dedupIds regIds)).isSome then
              constraints.map (fun e =>
                if e.1 = dedupIds regIds then
                  (e.1, e.2.filter (fun o => o ∈ enumerateSGroupOptions scalarOptions regIds))
                else e)
             else constraints ++ [(dedupIds regIds, enumerateSGroupOptions scalarOptions regIds)])
            (enumerateSGroupOptions scalarOptions regIds)
        else
          collectGroupConstraints scalarOptions rest constraints
            (enumerateSGroupOptions scalarOptions regIds)
      else .error "Impossible virtual register combination in instruction"
    else collectGroupConstraints scalarOptions rest constraints lastOptions

/-- The finalization at the end of `determine_register_relations`
(`for register_id_list, constrained_options in constraints.items():
self.allocation_options[register_id_list] = list(options)`): every constrained
tuple is stored with `list(options)` — the leftover loop variable holding the
last instruction's enumeration — and NOT with its computed intersection
`constrained_options`. -/
def storeGroupOptions (constraints : List (List Nat × List (List Nat)))
    (lastOptions : List (List Nat)) : List (List Nat × List (List Nat)) :=
  constraints.map (fun e => (e.1, lastOptions))

/-- Each of the virtual S registers 200-204 carries its full seeded option
list when the grouped constraints are detected. -/
def c5ScalarOptions : List (Nat × List Nat) :=
  [(200, sRegisterSeedOptions), (201, sRegisterSeedOptions), (202, sRegisterSeedOptions),
   (203, sRegisterSeedOptions), (204, sRegisterSeedOptions)]

/-- The placements a two-register `VLDM`/`VSTM` list enumerates under full
option lists: consecutive bit pairs at each of the 31 starting slots. -/
def pairEnumeration : List (List Nat) :=
  (List.range 31).map (fun n => [1 <<< n, 1 <<< (n + 1)])

/-- The placements a three-register `VLDM`/`VSTM` list enumerates under full
option lists: consecutive bit triples at each of the 30 starting slots. -/
def tripleEnumeration : List (List Nat) :=
  (List.range 30).map (fun n => [1 <<< n, 1 <<< (n + 1), 1 <<< (n + 2)])

/-- C5 fails on the code: with two grouped instructions over the distinct
tuples `(200, 201)` and `(202, 203, 204)`, the constraints dict correctly
records each tuple's enumeration (for `(200, 201)` the pair placements, which
is also the claim's intersection, as only one instruction carries that tuple),
but the finalization stores the leftover loop variable `options` — the LAST
instruction's three-register enumeration — as the joint options of BOTH
tuples, so the options finally stored for `(200, 201)` are not its
intersection. -/
theorem c5_group_options_last_write :
    collectGroupConstraints c5ScalarOptions [[200, 201], [202, 203, 204]] [] []
      = .ok ([([200, 201], pairEnumeration), ([202, 203, 204], tripleEnumeration)],
          tripleEnumeration)
    ∧ lookupD (storeGroupOptions
          [([200, 201], pairEnumeration), ([202, 203, 204], tripleEnumeration)]
          tripleEnumeration) [200, 201] []
        = tripleEnumeration
    ∧ tripleEnumeration ≠ pairEnumeration := by
  refine ⟨by rfl, by rfl, by decide⟩

end NervaPy
